import Mathlib

/- A shallow embedding of the EvolutionEngine bacteria simulation
   (JavaScript sources: the Genetics module of analytics.js, the Ecosystem
   module of ecosystem.js, the NeuralNetwork class and the main orchestrator).
   JavaScript numbers are modelled as rationals so that every definition is
   executable; the one Math.sqrt comparison is rendered as the equivalent
   squared comparison, noted where it occurs. -/

namespace EvoEngine

/-- NeuralNetwork.countWeights: the source loops l from 1 over the topology
    and adds topology[l-1]*topology[l] + topology[l]; this is the fold over
    consecutive pairs of the topology list. -/
def countWeights (topology : List ℕ) : ℕ :=
  (topology.zip topology.tail).foldl (fun c p => c + p.1 * p.2 + p.2) 0

/-- NN_TOPOLOGY of analytics.js (must match the NeuralNetwork class). -/
def NN_TOPOLOGY : List ℕ := [6, 8, 2]

/-- TRAIT_GENE_COUNT of analytics.js: one gene per trait. -/
def TRAIT_GENE_COUNT : ℕ := 40

/-- NN_WEIGHT_COUNT of analytics.js. -/
def NN_WEIGHT_COUNT : ℕ := countWeights NN_TOPOLOGY

/-- GENOME_LENGTH of analytics.js: trait genes followed by the weight genes. -/
def GENOME_LENGTH : ℕ := TRAIT_GENE_COUNT + NN_WEIGHT_COUNT

/-- A genome: the Float64Array of the source as a list of rationals.
    Reading index i is getD i 0 (reads of a Float64Array inside its length,
    which is how every read below is used in the source). -/
abbrev Genome := List ℚ

/-- The kill test of triggerSelection in the orchestrator:
    hasTrait = b.genome[traitIndex] > 0.5, and the bacterium is killed
    exactly when hasTrait is false. -/
def survivesSelection (g : Genome) (traitIndex : ℕ) : Bool :=
  decide ((0.5 : ℚ) < g.getD traitIndex 0)

/-- After the kill loop the orchestrator sets
    bacteria = bacteria.filter(b => b.alive): the post-event population is
    exactly the genomes passing the gene test. -/
def selectionSurvivors (pop : List Genome) (traitIndex : ℕ) : List Genome :=
  pop.filter (fun g => survivesSelection g traitIndex)

/-- Modelled from the spec: the survivor floor
    max(ceil(0.15 * P), min(10, P)) that the spec and the repository README
    say a selection event must enforce.  No such floor appears anywhere in
    triggerSelection. -/
def survivorFloor (P : ℕ) : ℕ :=
  max (Nat.ceil ((15 : ℚ) / 100 * P)) (min 10 P)

/-- The Ecosystem.config record of ecosystem.js (the numeric fields). -/
structure EcoConfig where
  foodSpawnRate : ℚ
  maxFood : ℕ
  foodEnergy : ℚ
  foodSize : ℚ
  metabolicCost : ℚ
  fastMetabolicMultiplier : ℚ
  slowMetabolicMultiplier : ℚ
  startEnergy : ℚ
  maxEnergy : ℚ
  overcrowdingThreshold : ℚ
  overcrowdingMultiplier : ℚ
  predatorEnergyGain : ℚ
  predatorCatchRange : ℚ
  hazardDamage : ℚ
  hazardDriftSpeed : ℚ
deriving DecidableEq

/-- The default configuration values of ecosystem.js. -/
def defaultEcoConfig : EcoConfig :=
  { foodSpawnRate := 0.6
    maxFood := 150
    foodEnergy := 25
    foodSize := 3
    metabolicCost := 0.04
    fastMetabolicMultiplier := 1.8
    slowMetabolicMultiplier := 0.5
    startEnergy := 100
    maxEnergy := 150
    overcrowdingThreshold := 180
    overcrowdingMultiplier := 2.0
    predatorEnergyGain := 40
    predatorCatchRange := 2.5
    hazardDamage := 0.15
    hazardDriftSpeed := 0.1 }

/-- The overcrowding factor of Ecosystem.update (ecosystem.js lines 125-127):
    popCount > threshold ? 1 + (popCount - threshold)/threshold*(mult - 1) : 1 -/
def overcrowdingFactor (cfg : EcoConfig) (popCount : ℕ) : ℚ :=
  if cfg.overcrowdingThreshold < (popCount : ℚ) then
    1 + ((popCount : ℚ) - cfg.overcrowdingThreshold) / cfg.overcrowdingThreshold
      * (cfg.overcrowdingMultiplier - 1)
  else 1

/-- Reading any position below n of a constant list gives the constant. -/
lemma replicate_getD (n i : ℕ) (x d : ℚ) (h : i < n) :
    (List.replicate n x).getD i d = x := by
  rw [List.getD_eq_getElem?_getD, List.getElem?_replicate, if_pos h]
  rfl

lemma genome_length_pos : 0 < GENOME_LENGTH := by decide

/-- C1: the spec says survival in a selection event is Bernoulli with success
    probability equal to the gene value, so a gene strictly between 0 and 1
    must have both surviving and dying outcomes.  Evaluating the embedded
    kill test of triggerSelection at such genes shows the decision is the
    deterministic hard threshold gene > 0.5: a gene of 3/10 always dies and a
    gene of 7/10 always survives; no random outcome enters the decision. -/
theorem selection_kill_is_hard_threshold :
    (0 : ℚ) < 3 / 10 ∧ (3 / 10 : ℚ) < 1 ∧
    survivesSelection (List.replicate GENOME_LENGTH (3 / 10)) 0 = false ∧
    survivesSelection (List.replicate GENOME_LENGTH (7 / 10)) 0 = true := by
  refine ⟨by norm_num, by norm_num, ?_, ?_⟩ <;>
    rw [survivesSelection, replicate_getD _ _ _ _ genome_length_pos] <;> norm_num

/-- C2: a pre-event population of 12 genomes, each with gene value 3/10 at the
    selected index, is culled to 0 survivors by triggerSelection, strictly
    below the floor max(ceil(0.15*12), min(10,12)) = 10 that the spec says is
    enforced; no retention backstop exists in the code. -/
theorem selection_has_no_survivor_floor :
    (selectionSurvivors
      (List.replicate 12 (List.replicate GENOME_LENGTH (3 / 10))) 0).length = 0 ∧
    survivorFloor 12 = 10 := by
  constructor
  · rw [selectionSurvivors, List.filter_eq_nil_iff.mpr, List.length_nil]
    intro g hg
    rw [List.eq_of_mem_replicate hg]
    rw [survivesSelection, replicate_getD _ _ _ _ genome_length_pos]
    norm_num
  · rw [survivorFloor]
    norm_num

/-- C4, counterexample: with the default configuration (threshold 180,
    multiplier 2) a population count of 361 gives an overcrowding factor of
    1 + 181/180 > 2, so the factor exceeds the configured multiplier: the
    formula is linear and not capped. -/
theorem overcrowdingFactor_exceeds_multiplier :
    defaultEcoConfig.overcrowdingMultiplier < overcrowdingFactor defaultEcoConfig 361 := by
  rw [overcrowdingFactor]
  norm_num [defaultEcoConfig]

/-- C4, amended: for any configuration with positive threshold T and
    multiplier M > 1, the factor equals 1 at or below T, increases strictly
    with the count above T, and is at most M exactly when the count is at
    most 2T (so it exceeds M beyond 2T: the growth is uncapped). -/
theorem overcrowdingFactor_spec (cfg : EcoConfig)
    (hT : 0 < cfg.overcrowdingThreshold) (hM : 1 < cfg.overcrowdingMultiplier)
    (p q : ℕ) :
    ((p : ℚ) ≤ cfg.overcrowdingThreshold → overcrowdingFactor cfg p = 1) ∧
    (cfg.overcrowdingThreshold < (p : ℚ) → (p : ℚ) < (q : ℚ) →
      overcrowdingFactor cfg p < overcrowdingFactor cfg q) ∧
    (overcrowdingFactor cfg p ≤ cfg.overcrowdingMultiplier ↔
      (p : ℚ) ≤ 2 * cfg.overcrowdingThreshold) := by
  set T := cfg.overcrowdingThreshold with hTdef
  set M := cfg.overcrowdingMultiplier with hMdef
  have hM1 : (0 : ℚ) < M - 1 := by linarith
  refine ⟨?_, ?_, ?_⟩
  · intro hp
    simp only [overcrowdingFactor, ← hTdef, ← hMdef]
    rw [if_neg (not_lt.mpr hp)]
  · intro hp hpq
    have hq : T < (q : ℚ) := lt_trans hp hpq
    simp only [overcrowdingFactor, ← hTdef, ← hMdef]
    rw [if_pos hp, if_pos hq]
    have h1 : ((p : ℚ) - T) / T < ((q : ℚ) - T) / T :=
      div_lt_div_of_pos_right (by linarith) hT
    nlinarith [mul_lt_mul_of_pos_right h1 hM1]
  · by_cases hp : T < (p : ℚ)
    · simp only [overcrowdingFactor, ← hTdef, ← hMdef]
      rw [if_pos hp]
      rw [← mul_le_mul_right hT]
      have hA : (1 + ((p : ℚ) - T) / T * (M - 1)) * T = T + ((p : ℚ) - T) * (M - 1) := by
        field_simp
      rw [hA]
      constructor
      · intro h
        nlinarith
      · intro h
        nlinarith
    · have hfac : overcrowdingFactor cfg p = 1 := by
        simp only [overcrowdingFactor, ← hTdef, ← hMdef]
        rw [if_neg hp]
      rw [hfac]
      push_neg at hp
      constructor
      · intro _
        linarith
      · intro _
        linarith

lemma defaultThreshold_pos : 0 < defaultEcoConfig.overcrowdingThreshold := by
  norm_num [defaultEcoConfig]

lemma defaultMultiplier_gt_one : 1 < defaultEcoConfig.overcrowdingMultiplier := by
  norm_num [defaultEcoConfig]

/-- Witness for the amended C4 theorem at the default configuration with
    population counts 200 and 300. -/
theorem overcrowdingFactor_spec_witness :
    (((200 : ℕ) : ℚ) ≤ defaultEcoConfig.overcrowdingThreshold →
      overcrowdingFactor defaultEcoConfig 200 = 1) ∧
    (defaultEcoConfig.overcrowdingThreshold < ((200 : ℕ) : ℚ) →
      ((200 : ℕ) : ℚ) < ((300 : ℕ) : ℚ) →
      overcrowdingFactor defaultEcoConfig 200 < overcrowdingFactor defaultEcoConfig 300) ∧
    (overcrowdingFactor defaultEcoConfig 200 ≤ defaultEcoConfig.overcrowdingMultiplier ↔
      ((200 : ℕ) : ℚ) ≤ 2 * defaultEcoConfig.overcrowdingThreshold) :=
  overcrowdingFactor_spec defaultEcoConfig defaultThreshold_pos defaultMultiplier_gt_one 200 300

/-- A food particle of ecosystem.js (the position; pulse and age play no role
    in the eating step). -/
structure Food where
  x : ℚ
  y : ℚ
deriving DecidableEq

/-- The per-bacterium state read and written by the eating step of
    Ecosystem.update (ecosystem.js lines 139-152). -/
structure Bact where
  x : ℚ
  y : ℚ
  size : ℚ
  energy : ℚ
  foodEaten : ℕ
  energyCollected : ℚ
deriving DecidableEq

/-- The contact test of the eating loop:
    Math.sqrt(dx*dx + dy*dy) < b.size + cfg.foodSize.
    Rendered without sqrt: for a nonnegative radicand s and bound r,
    sqrt s < r holds exactly when 0 ≤ r and s < r*r (both sides are false
    for r ≤ 0). -/
def eatContact (cfg : EcoConfig) (b : Bact) (f : Food) : Bool :=
  decide (0 ≤ b.size + cfg.foodSize ∧
    (b.x - f.x) * (b.x - f.x) + (b.y - f.y) * (b.y - f.y)
      < (b.size + cfg.foodSize) * (b.size + cfg.foodSize))

/-- The index of the food the bacterium eats this tick, if any.  The source
    iterates i from food.length - 1 down to 0 and breaks at the first index in
    contact, so a contact in the tail of the list (a higher index) takes
    precedence over the head. -/
def eatIndex (cfg : EcoConfig) (b : Bact) : List Food → Option ℕ
  | [] => none
  | f :: rest =>
    match eatIndex cfg b rest with
    | some j => some (j + 1)
    | none => if eatContact cfg b f then some 0 else none

/-- The state update applied to the bacterium when a food is eaten:
    energy = min(maxEnergy, energy + foodEnergy), foodEaten += 1,
    energyCollected += foodEnergy. -/
def eatGain (cfg : EcoConfig) (b : Bact) : Bact :=
  { b with
    energy := min cfg.maxEnergy (b.energy + cfg.foodEnergy)
    foodEaten := b.foodEaten + 1
    energyCollected := b.energyCollected + cfg.foodEnergy }

/-- The whole eating step for one bacterium in one tick: at most one food is
    consumed (the loop breaks), it is removed from the list by splice, and the
    bacterium gains energy. -/
def eatStep (cfg : EcoConfig) (b : Bact) (food : List Food) : Bact × List Food :=
  match eatIndex cfg b food with
  | some i => (eatGain cfg b, food.eraseIdx i)
  | none => (b, food)

/-- If no food is in contact, the scan finds nothing. -/
lemma eatIndex_eq_none (cfg : EcoConfig) (b : Bact) :
    ∀ food : List Food, (∀ f ∈ food, eatContact cfg b f = false) →
      eatIndex cfg b food = none := by
  intro food
  induction food with
  | nil => intro _; rfl
  | cons f rest ih =>
    intro h
    rw [eatIndex, ih fun g hg => h g (List.mem_cons_of_mem f hg)]
    rw [h f (List.mem_cons_self f rest)]
    rfl

/-- The scan returns exactly the greatest index in contact. -/
lemma eatIndex_eq_some (cfg : EcoConfig) (b : Bact) :
    ∀ (food : List Food) (i : ℕ), i < food.length →
      eatContact cfg b (food.getD i ⟨0, 0⟩) = true →
      (∀ j, i < j → j < food.length → eatContact cfg b (food.getD j ⟨0, 0⟩) = false) →
      eatIndex cfg b food = some i := by
  intro food
  induction food with
  | nil => intro i hi; exact absurd hi (by simp)
  | cons f rest ih =>
    intro i hi hc hafter
    match i with
    | 0 =>
      have hnone : eatIndex cfg b rest = none := by
        apply eatIndex_eq_none
        intro g hg
        obtain ⟨j, hj, hje⟩ := List.getElem_of_mem hg
        have := hafter (j + 1) (Nat.succ_pos j) (by simpa using Nat.succ_lt_succ hj)
        rw [List.getD_cons_succ, List.getD_eq_getElem _ _ hj, hje] at this
        exact this
      rw [eatIndex, hnone]
      rw [List.getD_cons_zero] at hc
      rw [hc]
      rfl
    | Nat.succ k =>
      have hk : k < rest.length := by simpa using hi
      have hck : eatContact cfg b (rest.getD k ⟨0, 0⟩) = true := by
        rw [List.getD_cons_succ] at hc
        exact hc
      have hrest : eatIndex cfg b rest = some k := by
        apply ih k hk hck
        intro j hkj hjl
        have := hafter (j + 1) (Nat.succ_lt_succ hkj) (by simpa using Nat.succ_lt_succ hjl)
        rw [List.getD_cons_succ] at this
        exact this
      rw [eatIndex, hrest]

/-- C5, counterexample: a bacterium at the origin with size 3 and the default
    configuration, facing the food list [f0, f1] with f0 at the origin and f1
    at distance 1 — both in contact range.  The claim says the first food in
    list iteration order (f0) is consumed; the code scans from the end of the
    list and consumes f1, leaving [f0]. -/
theorem eating_takes_last_match_not_first :
    eatContact defaultEcoConfig ⟨0, 0, 3, 100, 0, 0⟩ ⟨0, 0⟩ = true ∧
    eatContact defaultEcoConfig ⟨0, 0, 3, 100, 0, 0⟩ ⟨1, 0⟩ = true ∧
    eatStep defaultEcoConfig ⟨0, 0, 3, 100, 0, 0⟩ [⟨0, 0⟩, ⟨1, 0⟩] =
      (eatGain defaultEcoConfig ⟨0, 0, 3, 100, 0, 0⟩, [⟨0, 0⟩]) := by
  have h0 : eatContact defaultEcoConfig ⟨0, 0, 3, 100, 0, 0⟩ ⟨0, 0⟩ = true := by
    rw [eatContact]
    norm_num [defaultEcoConfig]
  have h1 : eatContact defaultEcoConfig ⟨0, 0, 3, 100, 0, 0⟩ ⟨1, 0⟩ = true := by
    rw [eatContact]
    norm_num [defaultEcoConfig]
  refine ⟨h0, h1, ?_⟩
  rw [eatStep, eatIndex, eatIndex, eatIndex, h1]
  rfl

/-- C5, amended: the food consumed in a tick is the one with the greatest
    index among those in contact range (the source scans the food list from
    its last element), not the first in list order; it is removed from the
    list and the bacterium gains foodEnergy clamped to maxEnergy, eating at
    most this one food in the tick. -/
theorem eatStep_spec (cfg : EcoConfig) (b : Bact) (food : List Food) (i : ℕ)
    (hi : i < food.length)
    (hc : eatContact cfg b (food.getD i ⟨0, 0⟩) = true)
    (hafter : ∀ j, i < j → j < food.length →
      eatContact cfg b (food.getD j ⟨0, 0⟩) = false) :
    eatStep cfg b food = (eatGain cfg b, food.eraseIdx i) := by
  rw [eatStep, eatIndex_eq_some cfg b food i hi hc hafter]

/-- Witness for the amended C5 theorem: one food at the origin, in contact. -/
theorem eatStep_spec_witness :
    eatStep defaultEcoConfig ⟨0, 0, 3, 100, 0, 0⟩ [⟨0, 0⟩] =
      (eatGain defaultEcoConfig ⟨0, 0, 3, 100, 0, 0⟩, List.eraseIdx [⟨0, 0⟩] 0) :=
  eatStep_spec defaultEcoConfig ⟨0, 0, 3, 100, 0, 0⟩ [⟨0, 0⟩] 0 (by simp)
    (by rw [List.getD_cons_zero, eatContact]; norm_num [defaultEcoConfig])
    (fun j hj hjl => absurd hj (by simp only [List.length_singleton] at hjl; omega))

/-- The clamp applied by Genetics.mutate after perturbing gene i:
    trait genes to [0, 1], weight genes to [-3, 3]. -/
def mutateGene (i : ℕ) (v : ℚ) : ℚ :=
  if i < TRAIT_GENE_COUNT then max 0 (min 1 v) else max (-3) (min 3 v)

/-- Genetics.mutate, with its random outcomes passed explicitly: flags i is
    the outcome of the Bernoulli trial Math.random() < rate at gene i (an
    arbitrary flag sequence covers every rate), and noise i is the Box-Muller
    sample added after scaling by sigma.  The source loops i over the whole
    genome (i < GENOME_LENGTH, the array length); the recursion carries the
    running index. -/
def mutateFrom (flags : ℕ → Bool) (noise : ℕ → ℚ) (sigma : ℚ) :
    ℕ → List ℚ → List ℚ
  | _, [] => []
  | i, v :: rest =>
    (if flags i then mutateGene i (v + noise i * sigma) else v) ::
      mutateFrom flags noise sigma (i + 1) rest

/-- Genetics.mutate on a genome (index starts at 0). -/
def mutate (g : Genome) (flags : ℕ → Bool) (noise : ℕ → ℚ) (sigma : ℚ) : Genome :=
  mutateFrom flags noise sigma 0 g

/-- Reading the mutated genome at a position below its length. -/
lemma mutateFrom_getD (flags : ℕ → Bool) (noise : ℕ → ℚ) (sigma : ℚ) :
    ∀ (l : List ℚ) (n i : ℕ), i < l.length →
      (mutateFrom flags noise sigma n l).getD i 0 =
        if flags (n + i) then mutateGene (n + i) (l.getD i 0 + noise (n + i) * sigma)
        else l.getD i 0 := by
  intro l
  induction l with
  | nil => intro n i hi; exact absurd hi (by simp)
  | cons v rest ih =>
    intro n i hi
    match i with
    | 0 =>
      rw [mutateFrom, List.getD_cons_zero, List.getD_cons_zero, Nat.add_zero]
    | Nat.succ k =>
      rw [mutateFrom, List.getD_cons_succ, List.getD_cons_succ]
      rw [ih (n + 1) k (by simpa using hi)]
      rw [show n + 1 + k = n + (k + 1) by omega]

/-- C6: mutation keeps trait genes in [0, 1] and weight genes in [-3, 3].
    For every genome whose trait genes (indices below 40) lie in [0, 1] and
    whose weight genes (indices 40..105) lie in [-3, 3], the mutated genome
    satisfies the same bounds, for every flag sequence (hence every rate),
    every noise sequence and every sigma: a mutated gene is clamped into its
    range and an untouched gene keeps its value. -/
theorem mutate_preserves_gene_bounds (g : Genome) (flags : ℕ → Bool)
    (noise : ℕ → ℚ) (sigma : ℚ) (hlen : g.length = GENOME_LENGTH)
    (ht : ∀ i, i < TRAIT_GENE_COUNT → 0 ≤ g.getD i 0 ∧ g.getD i 0 ≤ 1)
    (hw : ∀ i, i < 106 → TRAIT_GENE_COUNT ≤ i → -3 ≤ g.getD i 0 ∧ g.getD i 0 ≤ 3) :
    (∀ i, i < TRAIT_GENE_COUNT →
      0 ≤ (mutate g flags noise sigma).getD i 0 ∧
      (mutate g flags noise sigma).getD i 0 ≤ 1) ∧
    (∀ i, i < 106 → TRAIT_GENE_COUNT ≤ i →
      -3 ≤ (mutate g flags noise sigma).getD i 0 ∧
      (mutate g flags noise sigma).getD i 0 ≤ 3) := by
  have hlen2 : ∀ i : ℕ, i < 106 → i < g.length := by
    intro i hi
    rw [hlen]
    have : (106 : ℕ) ≤ GENOME_LENGTH := by decide
    omega
  constructor
  · intro i hi
    have hig : i < g.length := hlen2 i (by
      have : TRAIT_GENE_COUNT ≤ 106 := by decide
      omega)
    rw [mutate, mutateFrom_getD flags noise sigma g 0 i hig, Nat.zero_add]
    by_cases hf : flags i
    · rw [if_pos hf, mutateGene, if_pos hi]
      constructor
      · exact le_max_left 0 _
      · exact max_le (by norm_num) (min_le_left 1 _)
    · rw [if_neg hf]
      exact ht i hi
  · intro i hi106 hi40
    have hig : i < g.length := hlen2 i hi106
    rw [mutate, mutateFrom_getD flags noise sigma g 0 i hig, Nat.zero_add]
    by_cases hf : flags i
    · rw [if_pos hf, mutateGene, if_neg (by omega)]
      constructor
      · exact le_max_left (-3) _
      · exact max_le (by norm_num) (min_le_left 3 _)
    · rw [if_neg hf]
      exact hw i hi106 hi40

/-- The all-zero genome used to witness the mutation bound theorem. -/
def zeroGenome : Genome := List.replicate GENOME_LENGTH 0

lemma zeroGenome_length : zeroGenome.length = GENOME_LENGTH := by
  rw [zeroGenome, List.length_replicate]

lemma zeroGenome_trait_bounds :
    ∀ i, i < TRAIT_GENE_COUNT → 0 ≤ zeroGenome.getD i 0 ∧ zeroGenome.getD i 0 ≤ 1 := by
  intro i hi
  have h40 : TRAIT_GENE_COUNT ≤ GENOME_LENGTH := by decide
  rw [zeroGenome, replicate_getD _ _ _ _ (by omega)]
  norm_num

lemma zeroGenome_weight_bounds :
    ∀ i, i < 106 → TRAIT_GENE_COUNT ≤ i →
      -3 ≤ zeroGenome.getD i 0 ∧ zeroGenome.getD i 0 ≤ 3 := by
  intro i hi _
  have h106 : (106 : ℕ) ≤ GENOME_LENGTH := by decide
  rw [zeroGenome, replicate_getD _ _ _ _ (by omega)]
  norm_num

/-- Witness for the mutation bound theorem: the all-zero genome, every gene
    mutated, noise 10, sigma 1. -/
theorem mutate_preserves_gene_bounds_witness :
    (∀ i, i < TRAIT_GENE_COUNT →
      0 ≤ (mutate zeroGenome (fun _ => true) (fun _ => 10) 1).getD i 0 ∧
      (mutate zeroGenome (fun _ => true) (fun _ => 10) 1).getD i 0 ≤ 1) ∧
    (∀ i, i < 106 → TRAIT_GENE_COUNT ≤ i →
      -3 ≤ (mutate zeroGenome (fun _ => true) (fun _ => 10) 1).getD i 0 ∧
      (mutate zeroGenome (fun _ => true) (fun _ => 10) 1).getD i 0 ≤ 3) :=
  mutate_preserves_gene_bounds zeroGenome (fun _ => true) (fun _ => 10) 1
    zeroGenome_length zeroGenome_trait_bounds zeroGenome_weight_bounds

/-- A trait of the TRAIT_POOL constant in the orchestrator: a name, a display
    color and a description. -/
structure Trait where
  name : String
  color : String
  desc : String
deriving DecidableEq

/-- The 40-entry TRAIT_POOL of the orchestrator. -/
def TRAIT_POOL : List Trait := [
  ⟨"Heat Resistance", "#ef4444", "Survives extreme temperatures"⟩,
  ⟨"Cold Tolerance", "#38bdf8", "Thrives in freezing conditions"⟩,
  ⟨"UV Shield", "#fbbf24", "Blocks ultraviolet radiation"⟩,
  ⟨"Acid Resistance", "#a3e635", "Survives in acidic environments"⟩,
  ⟨"Alkaline Tolerance", "#818cf8", "Thrives in basic pH levels"⟩,
  ⟨"Thick Cell Wall", "#f97316", "Extra structural protection"⟩,
  ⟨"Rapid Division", "#f472b6", "Doubles faster than peers"⟩,
  ⟨"Spore Formation", "#a78bfa", "Can enter dormant state"⟩,
  ⟨"Biofilm Producer", "#34d399", "Creates protective colonies"⟩,
  ⟨"Antibiotic Resistance", "#fb923c", "Survives antibiotic exposure"⟩,
  ⟨"Toxin Secretion", "#c084fc", "Produces harmful compounds"⟩,
  ⟨"Chemotaxis", "#22d3ee", "Moves toward nutrients"⟩,
  ⟨"Photosynthesis", "#4ade80", "Harvests light energy"⟩,
  ⟨"Bioluminescence", "#e879f9", "Produces visible light"⟩,
  ⟨"Magnetotaxis", "#60a5fa", "Navigates via magnetic fields"⟩,
  ⟨"Radiation Resistance", "#fcd34d", "Withstands ionizing radiation"⟩,
  ⟨"Desiccation Tolerance", "#d4a76a", "Survives dehydration"⟩,
  ⟨"Pressure Resistance", "#6ee7b7", "Survives deep-sea pressures"⟩,
  ⟨"Oxygen Independence", "#94a3b8", "Lives without oxygen"⟩,
  ⟨"Metal Resistance", "#cbd5e1", "Tolerates heavy metals"⟩,
  ⟨"Salt Tolerance", "#fda4af", "Thrives in high salinity"⟩,
  ⟨"Elastic Membrane", "#86efac", "Flexible cell boundary"⟩,
  ⟨"Quorum Sensing", "#c4b5fd", "Communicates with neighbors"⟩,
  ⟨"Gene Transfer", "#fdba74", "Shares DNA with others"⟩,
  ⟨"Camouflage", "#475569", "Evades immune detection"⟩,
  ⟨"Fast Metabolism", "#f43f5e", "Processes energy quickly"⟩,
  ⟨"Slow Metabolism", "#64748b", "Conserves energy reserves"⟩,
  ⟨"Enzyme Secretion", "#2dd4bf", "Breaks down complex molecules"⟩,
  ⟨"Pili Attachment", "#fb7185", "Clings to surfaces"⟩,
  ⟨"Flagella Motility", "#38bdf8", "Swims with flagella"⟩,
  ⟨"Capsule Coating", "#a3e635", "Slimy protective layer"⟩,
  ⟨"Iron Scavenging", "#d97706", "Extracts iron efficiently"⟩,
  ⟨"Nitrogen Fixation", "#059669", "Converts atmospheric nitrogen"⟩,
  ⟨"Sulfur Metabolism", "#eab308", "Uses sulfur compounds"⟩,
  ⟨"Symbiosis", "#8b5cf6", "Benefits from host organisms"⟩,
  ⟨"Predatory Behavior", "#dc2626", "Consumes other bacteria"⟩,
  ⟨"DNA Repair", "#14b8a6", "Fixes mutations efficiently"⟩,
  ⟨"Membrane Pumps", "#7c3aed", "Expels toxins actively"⟩,
  ⟨"Endospore Armor", "#b45309", "Nearly indestructible shell"⟩,
  ⟨"Phage Immunity", "#0ea5e9", "Resists viral infection"⟩]

/-- Genetics.expressTraits: loop i from 0 while i < TRAIT_GENE_COUNT and
    i < pool.length, pushing pool[i] whenever genome[i] > 0.5.  The recursion
    walks the pool carrying the loop counter i. -/
def expressTraitsAux (g : Genome) : ℕ → List Trait → List Trait
  | _, [] => []
  | i, t :: rest =>
    if i < TRAIT_GENE_COUNT then
      if (0.5 : ℚ) < g.getD i 0 then t :: expressTraitsAux g (i + 1) rest
      else expressTraitsAux g (i + 1) rest
    else []

/-- Genetics.expressTraits on a genome and a trait pool. -/
def expressTraits (g : Genome) (pool : List Trait) : List Trait :=
  expressTraitsAux g 0 pool

/-- Modelled from the claim wording, for comparison with the source: the
    ordered subset of the pool consisting of the entries whose gene value
    strictly exceeds 0.5, in pool index order. -/
def specExpressedTraits (g : Genome) (pool : List Trait) : List Trait :=
  ((pool.enum.filter fun p => decide ((0.5 : ℚ) < g.getD p.1 0)).map Prod.snd)

/-- The loop agrees with the index-order filter as long as the pool does not
    run past the trait gene count. -/
lemma expressTraitsAux_eq_filter (g : Genome) :
    ∀ (pool : List Trait) (i : ℕ), i + pool.length ≤ TRAIT_GENE_COUNT →
      expressTraitsAux g i pool =
        ((pool.enumFrom i).filter fun p => decide ((0.5 : ℚ) < g.getD p.1 0)).map
          Prod.snd := by
  intro pool
  induction pool with
  | nil => intro i _; rfl
  | cons t rest ih =>
    intro i hle
    have hlen : i + (rest.length + 1) ≤ TRAIT_GENE_COUNT := by
      simpa using hle
    have hi : i < TRAIT_GENE_COUNT := by omega
    rw [expressTraitsAux, if_pos hi, List.enumFrom_cons, List.filter_cons]
    by_cases hg : (0.5 : ℚ) < g.getD i 0
    · rw [if_pos hg]
      rw [if_pos (show decide ((0.5 : ℚ) < g.getD (i, t).1 0) = true by simpa using hg)]
      rw [List.map_cons, ih (i + 1) (by omega)]
    · rw [if_neg hg]
      rw [if_neg (show ¬decide ((0.5 : ℚ) < g.getD (i, t).1 0) = true by simpa using hg)]
      exact ih (i + 1) (by omega)

/-- C7: on the 40-trait pool, Genetics.expressTraits returns exactly the pool
    entries whose gene value strictly exceeds 0.5, in pool index order (so a
    gene equal to 0.5 is not expressed and gene magnitude does not influence
    the order). -/
theorem expressTraits_exactly_expressed (g : Genome) :
    expressTraits g TRAIT_POOL = specExpressedTraits g TRAIT_POOL := by
  rw [expressTraits, specExpressedTraits, List.enum]
  exact expressTraitsAux_eq_filter g TRAIT_POOL 0 (by decide)

/-- The NeuralNetwork state: a topology and a flat weight array.  The
    constructor copies the weight array it is given, so the state is exactly
    the passed list. -/
structure Brain where
  topology : List ℕ
  weights : List ℚ
deriving DecidableEq

/-- NeuralNetwork.getWeights returns a copy of the flat weight array. -/
def Brain.getWeights (br : Brain) : List ℚ :=
  br.weights

/-- Genetics.buildBrain: new NeuralNetwork(NN_TOPOLOGY,
    genome.slice(TRAIT_GENE_COUNT, GENOME_LENGTH)); slice(a, b) takes the
    elements of indices [a, b). -/
def buildBrain (g : Genome) : Brain :=
  ⟨NN_TOPOLOGY, (g.drop TRAIT_GENE_COUNT).take NN_WEIGHT_COUNT⟩

/-- Genetics.writeBrainToGenome: for i < NN_WEIGHT_COUNT,
    genome[TRAIT_GENE_COUNT + i] = w[i].  A Float64Array store past the end
    of the array is a no-op, as is List.set. -/
def writeBrainToGenome (g : Genome) (br : Brain) : Genome :=
  (List.range NN_WEIGHT_COUNT).foldl
    (fun acc i => acc.set (TRAIT_GENE_COUNT + i) (br.getWeights.getD i 0)) g

/-- Setting a position of a list to the value already stored there (getD with
    any default, when the position is inside the list; a set outside the list
    is a no-op) leaves the list unchanged. -/
lemma set_getD_self (d : ℚ) : ∀ (l : List ℚ) (n : ℕ), l.set n (l.getD n d) = l := by
  intro l
  induction l with
  | nil => intro n; rfl
  | cons a rest ih =>
    intro n
    match n with
    | 0 => rw [List.getD_cons_zero, List.set_cons_zero]
    | Nat.succ k => rw [List.getD_cons_succ, List.set_cons_succ, ih k]

/-- Writing back values that agree with the current contents is the
    identity. -/
lemma foldl_set_id (g : Genome) (w : List ℚ) :
    ∀ n : ℕ, (∀ i, i < n → w.getD i 0 = g.getD (TRAIT_GENE_COUNT + i) 0) →
      (List.range n).foldl
        (fun acc i => acc.set (TRAIT_GENE_COUNT + i) (w.getD i 0)) g = g := by
  intro n
  induction n with
  | zero => intro _; rfl
  | succ m ih =>
    intro h
    rw [List.range_succ, List.foldl_append, ih fun i hi => h i (by omega)]
    rw [List.foldl_cons, List.foldl_nil, h m (by omega), set_getD_self]

/-- The weight slice read by buildBrain agrees with the genome entry by
    entry. -/
lemma slice_getD (g : Genome) (i : ℕ) (hi : i < NN_WEIGHT_COUNT) :
    ((g.drop TRAIT_GENE_COUNT).take NN_WEIGHT_COUNT).getD i 0 =
      g.getD (TRAIT_GENE_COUNT + i) 0 := by
  rw [List.getD_eq_getElem?_getD, List.getD_eq_getElem?_getD]
  rw [List.getElem?_take, List.getElem?_drop]
  rw [if_pos hi]

/-- C8: writing the brain built from a genome straight back into that genome
    is the identity; in particular every entry of the weight segment is
    unchanged. -/
theorem writeBrain_buildBrain_id (g : Genome) :
    writeBrainToGenome g (buildBrain g) = g := by
  rw [writeBrainToGenome]
  exact foldl_set_id g (buildBrain g).getWeights NN_WEIGHT_COUNT
    fun i hi => slice_getD g i hi

/-- One unit of the forward pass: the dot product of the previous activations
    with the weight row starting at cursor wi, plus the bias that follows the
    row, fed through the activation.  Math.tanh is not computable over the
    rationals, so the activation is an explicit parameter; the theorems below
    hold for every activation, in particular tanh. -/
def unitOut (act : ℚ → ℚ) (w acts : List ℚ) (wi prevSize : ℕ) : ℚ :=
  act (((List.range prevSize).foldl
    (fun s i => s + acts.getD i 0 * w.getD (wi + i) 0) 0) + w.getD (wi + prevSize) 0)

/-- One layer of the forward pass: unit j reads prevSize weights and one bias
    starting at cursor wi + j * (prevSize + 1), matching the running weight
    cursor of the source. -/
def layerOut (act : ℚ → ℚ) (w acts : List ℚ) (wi prevSize currSize : ℕ) : List ℚ :=
  (List.range currSize).map fun j => unitOut act w acts (wi + j * (prevSize + 1)) prevSize

/-- The layer loop of NeuralNetwork.forward over the remaining topology, with
    the running weight cursor. -/
def forwardAux (act : ℚ → ℚ) (w : List ℚ) :
    ℕ → ℕ → List ℕ → List ℚ → List ℚ
  | _, _, [], acts => acts
  | wi, prevSize, curr :: rest, acts =>
    forwardAux act w (wi + curr * (prevSize + 1)) curr rest
      (layerOut act w acts wi prevSize curr)

/-- NeuralNetwork.forward: the layer loop starting from the input activations
    with the weight cursor at 0. -/
def forward (act : ℚ → ℚ) (topology : List ℕ) (w inputs : List ℚ) : List ℚ :=
  match topology with
  | [] => inputs
  | t0 :: rest => forwardAux act w 0 t0 rest inputs

/-- C9: the forward pass of the [6, 8, 2] brain is deterministic — two
    evaluations on equal weight vectors and equal input vectors return equal
    outputs (the embedding is a pure function of the weights, the inputs, and
    the activation: no other state enters) — and the output is the 2-element
    vector produced by the final layer. -/
theorem forward_deterministic (act : ℚ → ℚ) (w1 w2 ins1 ins2 : List ℚ)
    (hw : w1 = w2) (hins : ins1 = ins2) :
    forward act NN_TOPOLOGY w1 ins1 = forward act NN_TOPOLOGY w2 ins2 ∧
    (forward act NN_TOPOLOGY w1 ins1).length = 2 := by
  subst hw
  subst hins
  refine ⟨rfl, ?_⟩
  rw [show forward act NN_TOPOLOGY w1 ins1 =
      layerOut act w1 (layerOut act w1 ins1 0 6 8) 56 8 2 from rfl]
  rw [layerOut, List.length_map, List.length_range]

/-- Witness for the forward determinism theorem: the identity activation,
    zero weights and zero inputs. -/
theorem forward_deterministic_witness :
    forward (fun v => v) NN_TOPOLOGY (List.replicate NN_WEIGHT_COUNT 0)
        (List.replicate 6 0) =
      forward (fun v => v) NN_TOPOLOGY (List.replicate NN_WEIGHT_COUNT 0)
        (List.replicate 6 0) ∧
    (forward (fun v => v) NN_TOPOLOGY (List.replicate NN_WEIGHT_COUNT 0)
        (List.replicate 6 0)).length = 2 :=
  forward_deterministic (fun v => v) (List.replicate NN_WEIGHT_COUNT 0)
    (List.replicate NN_WEIGHT_COUNT 0) (List.replicate 6 0) (List.replicate 6 0)
    rfl rfl

/-- The scan of Genetics.rouletteSelect: r -= max(0.01, b.fitness); return b
    as soon as r ≤ 0. -/
def rouletteScan {α : Type} (fit : α → ℚ) : List α → ℚ → Option α
  | [], _ => none
  | b :: rest, r =>
    if r - max 0.01 (fit b) ≤ 0 then some b
    else rouletteScan fit rest (r - max 0.01 (fit b))

/-- Genetics.rouletteSelect with the random draw r (in the source
    r = Math.random() * totalFitness) passed explicitly: the scan, with the
    final fallback population[population.length - 1]. -/
def rouletteSelect {α : Type} (pop : List α) (fit : α → ℚ) (r : ℚ) : Option α :=
  match rouletteScan fit pop r with
  | some b => some b
  | none => pop.getLast?

/-- The total of the floored weights, as summed into totalFitness by the
    source. -/
def totalWeight {α : Type} (pop : List α) (fit : α → ℚ) : ℚ :=
  (pop.map fun b => max 0.01 (fit b)).sum

lemma totalWeight_nonneg {α : Type} (pop : List α) (fit : α → ℚ) :
    0 ≤ totalWeight pop fit := by
  apply List.sum_nonneg
  intro x hx
  obtain ⟨b, _, hb⟩ := List.mem_map.mp hx
  rw [← hb]
  exact le_trans (by norm_num) (le_max_left 0.01 (fit b))

/-- A draw above the total floored weight makes the scan run off the end. -/
lemma rouletteScan_eq_none {α : Type} (fit : α → ℚ) :
    ∀ (pop : List α) (r : ℚ), totalWeight pop fit < r →
      rouletteScan fit pop r = none := by
  intro pop
  induction pop with
  | nil => intro r _; rfl
  | cons b rest ih =>
    intro r hr
    rw [totalWeight, List.map_cons, List.sum_cons] at hr
    have hrest : totalWeight rest fit < r - max 0.01 (fit b) := by
      rw [totalWeight]
      linarith
    have hpos : ¬r - max 0.01 (fit b) ≤ 0 := by
      have := totalWeight_nonneg rest fit
      linarith
    rw [rouletteScan, if_neg hpos]
    exact ih (r - max 0.01 (fit b)) hrest

/-- The scan only ever returns list members. -/
lemma rouletteScan_mem {α : Type} (fit : α → ℚ) :
    ∀ (pop : List α) (r : ℚ) (b : α), rouletteScan fit pop r = some b → b ∈ pop := by
  intro pop
  induction pop with
  | nil => intro r b h; exact absurd h (by rw [rouletteScan]; simp)
  | cons a rest ih =>
    intro r b h
    rw [rouletteScan] at h
    by_cases hr : r - max 0.01 (fit a) ≤ 0
    · rw [if_pos hr] at h
      rw [← Option.some_inj.mp h]
      exact List.mem_cons_self a rest
    · rw [if_neg hr] at h
      exact List.mem_cons_of_mem a (ih (r - max 0.01 (fit a)) b h)

/-- C10: over a non-empty population, rouletteSelect always returns a member,
    for every fitness assignment (negative and all-zero included, the weights
    being floored at max(0.01, fitness)) and every draw r; and whenever the
    scan does not terminate early — in particular for any draw above the
    total floored weight — the last individual of the population is
    returned. -/
theorem rouletteSelect_total {α : Type} (pop : List α) (fit : α → ℚ) (r : ℚ)
    (hne : pop ≠ []) :
    (∃ b ∈ pop, rouletteSelect pop fit r = some b) ∧
    (totalWeight pop fit < r → rouletteSelect pop fit r = pop.getLast?) ∧
    (pop.getLast?).isSome = true := by
  refine ⟨?_, ?_, ?_⟩
  · cases hscan : rouletteScan fit pop r with
    | some b =>
      exact ⟨b, rouletteScan_mem fit pop r b hscan, by rw [rouletteSelect, hscan]⟩
    | none =>
      obtain ⟨a, la, hlast⟩ := List.exists_cons_of_ne_nil (List.reverse_ne_nil_iff.mpr hne)
      have hmem : a ∈ pop := by
        have : a ∈ pop.reverse := by rw [hlast]; exact List.mem_cons_self a la
        simpa using this
      refine ⟨a, hmem, ?_⟩
      rw [rouletteSelect, hscan, List.getLast?_eq_head?_reverse, hlast]
      rfl
  · intro hr
    rw [rouletteSelect, rouletteScan_eq_none fit pop r hr]
  · obtain ⟨a, la, hlast⟩ := List.exists_cons_of_ne_nil (List.reverse_ne_nil_iff.mpr hne)
    rw [List.getLast?_eq_head?_reverse, hlast]
    rfl

/-- Witness for the roulette totality theorem: the population of fitnesses
    [10, 5, 1] with the identity fitness function and draw 100. -/
theorem rouletteSelect_total_witness :
    (∃ b ∈ [(10 : ℚ), 5, 1], rouletteSelect [(10 : ℚ), 5, 1] (fun v => v) 100 = some b) ∧
    (totalWeight [(10 : ℚ), 5, 1] (fun v => v) < 100 →
      rouletteSelect [(10 : ℚ), 5, 1] (fun v => v) 100 = [(10 : ℚ), 5, 1].getLast?) ∧
    ([(10 : ℚ), 5, 1].getLast?).isSome = true :=
  rouletteSelect_total [(10 : ℚ), 5, 1] (fun v => v) 100 (by simp)

end EvoEngine
